import Mathlib

/-!
# Verification of the stock-dashboard core (stock_dashboard_app.py)

Shallow embedding of the data-freshness layer of the dashboard:
watchlist parsing, the quote fetcher, the intraday-history fetcher
(timezone normalization, empty-result handling), the percent-change
metric, the TTL caches behind the memoization decorators, and the
highlight-metrics column layout.

Conventions:
* Python `float` values that may be NaN/None are modelled as `Option ℚ`
  (`none` = `np.nan` / unavailable); `pd.isna x` is `x = none`.
* A call that may raise is modelled in `Except Unit`; `Except.error`
  is a raised exception crossing the fetcher boundary.
* Characters/strings use Lean `Char`/`String`; parsing is done on
  `List Char` so that everything reduces by kernel computation.
-/

namespace StockDashboard

/-! ## Watchlist parsing

Source line 87:
`tickers = [t.strip().upper() for t in watchlist.split(",") if t.strip()]`
-/

/-- Whitespace recognised by Python `str.strip()` (the subset that can
occur in a single-line text input). -/
def isSpaceChar (c : Char) : Bool :=
  c = ' ' || c = '\t' || c = '\n' || c = '\r'

/-- Python `str.strip()`: drop leading and trailing whitespace. -/
def strip (l : List Char) : List Char :=
  ((l.dropWhile isSpaceChar).reverse.dropWhile isSpaceChar).reverse

/-- Python `str.upper()` on one ASCII character. -/
def upperChar (c : Char) : Char :=
  if 'a' ≤ c ∧ c ≤ 'z' then Char.ofNat (c.toNat - 32) else c

/-- Python `s.split(",")`: split on every comma, keeping empty pieces
(so `"".split(",") == [""]`). -/
def splitComma : List Char → List (List Char)
  | [] => [[]]
  | c :: cs =>
    match splitComma cs with
    | [] => if c = ',' then [[], []] else [[c]]
    | h :: t => if c = ',' then [] :: h :: t else (c :: h) :: t

/-- Source line 87: trimmed, uppercased, non-empty entries of the
comma-separated watchlist, in input order.  Note the source applies no
deduplication. -/
def tickers (watchlist : String) : List String :=
  ((splitComma watchlist.data).filterMap fun t =>
    let s := strip t
    if s = [] then none else some (s.map upperChar)).map List.asString

/-! ## Metric engine

Source lines 72–75 (`pct_change`). -/

/-- Source `pct_change(curr, prev)`: NaN when either input is
unavailable or `prev == 0`, else `(curr - prev) / prev * 100.0`. -/
def pct_change (curr prev : Option ℚ) : Option ℚ :=
  if curr = none ∨ prev = none ∨ prev = some 0 then none
  else match curr, prev with
    | some c, some p => some ((c - p) / p * 100)
    | _, _ => none

/-! ## Quote fetcher

Source lines 52–70 (`fetch_quote`): read five fields from
`yf.Ticker(ticker).fast_info`, converting the three numeric ones with
`float(...)` when present (`np.nan` when absent), and catch every
exception raised in the body, returning the all-unavailable dict. -/

/-- A value sitting in one of the numeric `fast_info` slots: either a
value on which Python `float(...)` succeeds, or a malformed value on
which `float(...)` raises. -/
inductive FieldVal : Type
  | num (q : ℚ)
  | malformed
deriving DecidableEq

/-- `float(info.get(f)) if info.get(f) is not None else np.nan`:
absent field gives NaN (`none`); present parseable field gives its
number; present malformed field raises. -/
def floatField : Option FieldVal → Except Unit (Option ℚ)
  | none => .ok none
  | some (.num q) => .ok (some q)
  | some .malformed => .error ()

/-- The `fast_info` mapping, restricted to the five keys the source
reads. `none` models an absent key (`info.get` returns `None`). -/
structure FastInfo : Type where
  last_price : Option FieldVal
  open_ : Option FieldVal
  previous_close : Option FieldVal
  currency : Option String
  exchange : Option String
deriving DecidableEq

/-- The dict returned by `fetch_quote`, with exactly the five keys of
the source literal; `none` models `np.nan`. -/
structure Quote : Type where
  last_price : Option ℚ
  open_ : Option ℚ
  previous_close : Option ℚ
  currency : String
  exchange : String
deriving DecidableEq

/-- The `except Exception` branch of `fetch_quote` (source lines
63–70): every numeric field NaN, both strings empty. -/
def emptyQuote : Quote :=
  { last_price := none, open_ := none, previous_close := none
    currency := "", exchange := "" }

/-- Body of the `try` block of `fetch_quote`: the upstream call
`yf.Ticker(ticker).fast_info` may itself raise (argument
`provider : Except Unit FastInfo`), and each `float(...)` conversion
may raise. -/
def fetch_quote_try (provider : Except Unit FastInfo) : Except Unit Quote := do
  let info ← provider
  let lp ← floatField info.last_price
  let op ← floatField info.open_
  let pc ← floatField info.previous_close
  pure { last_price := lp, open_ := op, previous_close := pc
         currency := info.currency.getD ""
         exchange := info.exchange.getD "" }

/-- Source lines 52–70: `fetch_quote`, with the `except Exception`
handler converting any raised error into the all-unavailable quote. -/
def fetch_quote (provider : Except Unit FastInfo) : Quote :=
  match fetch_quote_try provider with
  | .ok q => q
  | .error _ => emptyQuote

/-! ## History fetcher

Source lines 39–50 (`fetch_intraday_history`). A pandas `DataFrame`
from `yf.download` is a timestamp index plus rows; the index carries a
single timezone tag (`data.index.tz`), `none` meaning timezone-naive.
For a naive index the stored values are wall-clock readings; once the
index is timezone-aware they are absolute instants (and localizing a
naive index to UTC, whose offset is 0, leaves the numbers unchanged,
which is exactly what `tz_localize("UTC")` does). -/

/-- A timezone tag on a DataFrame index. -/
inductive TZ : Type
  | utc
  | newYork
  | other (name : String)
deriving DecidableEq

/-- The displayed UTC offset of a timestamp with instant `i` under a
timezone tag, given the (DST-dependent) offset function `nyOffset` of
America/New_York; `utcOffset` covers the tags other than UTC and
New York. -/
def displayOffset (nyOffset : Int → Int) (utcOffset : String → Int → Int) :
    TZ → Int → Int
  | .utc, _ => 0
  | .newYork, i => nyOffset i
  | .other nm, i => utcOffset nm i

/-- A pandas DataFrame as the source uses it: timezone tag of the
index, the index values, and the rows (row contents are opaque). -/
structure DataFrame (ρ : Type) : Type where
  tz : Option TZ
  index : List Int
  vals : List ρ
deriving DecidableEq

/-- `pd.DataFrame()`: the empty frame returned on a no-data result. -/
def emptyDF {ρ : Type} : DataFrame ρ := { tz := none, index := [], vals := [] }

/-- `data.empty`: no rows in the frame. -/
def DataFrame.isEmptyDF {ρ : Type} (df : DataFrame ρ) : Bool :=
  df.index.isEmpty

/-- `index.tz_localize("UTC")`: interpret a naive index as UTC
wall-clock; the offset of UTC is 0, so the instants are the same numbers.
Pandas raises when the index is already timezone-aware. -/
def DataFrame.tz_localize_utc {ρ : Type} (df : DataFrame ρ) :
    Option (DataFrame ρ) :=
  match df.tz with
  | none => some { df with tz := some TZ.utc }
  | some _ => none

/-- `index.tz_convert(z)`: re-tag an aware index with a new timezone;
the underlying instants are unchanged. Pandas raises on a naive
index. -/
def DataFrame.tz_convert {ρ : Type} (z : TZ) (df : DataFrame ρ) :
    Option (DataFrame ρ) :=
  match df.tz with
  | some _ => some { df with tz := some z }
  | none => none

/-- Source lines 39–50: `fetch_intraday_history`. The upstream
`yf.download` call is the argument (it may raise, return `None`, or
return a frame); the source has no exception handler, so a raised
upstream error propagates. -/
def fetch_intraday_history {ρ : Type}
    (download : Except Unit (Option (DataFrame ρ))) :
    Except Unit (DataFrame ρ) :=
  match download with
  | .error e => .error e
  | .ok data =>
    match data with
    | none => .ok emptyDF
    | some df =>
      if df.isEmptyDF then .ok emptyDF
      else
        match df.tz with
        | none =>
          match df.tz_localize_utc >>= DataFrame.tz_convert TZ.newYork with
          | some r => .ok r
          | none => .error ()
        | some _ =>
          match df.tz_convert TZ.newYork with
          | some r => .ok r
          | none => .error ()

/-! ## TTL caches

The source caches through decorators: `@st.cache_data(ttl=30)` on
`fetch_intraday_history` (line 39) and `@st.cache_data(ttl=15)` on
`fetch_quote` (line 52). -/

/-- Quote-cache TTL: the `ttl=15` argument on source line 52. -/
def quoteTTL : ℕ := 15

/-- History-cache TTL: the `ttl=30` argument on source line 39. -/
def historyTTL : ℕ := 30

/-- A cached value with its storage time (spec: `CacheEntry<T>` wraps
a value with `stored_at`). -/
structure CacheEntry (α : Type) : Type where
  value : α
  stored_at : ℕ
deriving DecidableEq

/-- A cache: a finite-support map from keys to entries, as a
function. -/
def Cache (κ α : Type) : Type := κ → Option (CacheEntry α)

/-- Store an entry under a key, replacing any previous entry for that
key and touching no other key. -/
def Cache.insert {κ α : Type} [DecidableEq κ]
    (c : Cache κ α) (k : κ) (e : CacheEntry α) : Cache κ α :=
  fun k2 => if k2 = k then some e else c k2

/-- Modelled from the spec: the `st.cache_data(ttl=...)` decorator is
not part of the repository; spec §9 describes it as "TTL-bounded
memoization keyed by arguments", which §4.1 names `get_or_fetch`.
A valid entry (now − stored_at < ttl) is returned without invoking
the fetch function; otherwise the fetch function is invoked and its
result is stored at the current time and returned.  The third
component of the result counts how many times `fetch` was invoked. -/
def get_or_fetch {κ α : Type} [DecidableEq κ]
    (c : Cache κ α) (k : κ) (ttl now : ℕ) (fetch : Unit → α) :
    α × Cache κ α × ℕ :=
  match c k with
  | some e =>
    if now - e.stored_at < ttl then (e.value, c, 0)
    else
      let v := fetch ()
      (v, c.insert k ⟨v, now⟩, 1)
  | none =>
    let v := fetch ()
    (v, c.insert k ⟨v, now⟩, 1)

/-- Two successive `get_or_fetch` calls for the same key (at times
`t1` then `t2`, the second on the cache the first returned): total
number of fetch invocations. -/
def twoCallCount {κ α : Type} [DecidableEq κ]
    (c : Cache κ α) (k : κ) (ttl t1 t2 : ℕ) (fetch : Unit → α) : ℕ :=
  let r1 := get_or_fetch c k ttl t1 fetch
  let r2 := get_or_fetch r1.2.1 k ttl t2 fetch
  r1.2.2 + r2.2.2

/-! ## Chart-mode presets and highlight grid -/

/-- Source lines 30–33: `range_map`, the (period, interval) preset per
chart type; `none` for a key not in the dict. -/
def range_map : String → Option (String × String)
  | "Line (1m)" => some ("1d", "1m")
  | "Candlestick (5m)" => some ("5d", "5m")
  | _ => none

/-- The key of the history cache: the argument triple
(ticker, period, interval) of `fetch_intraday_history` — `st.cache_data` memoizes keyed by
arguments. -/
def HistoryKey : Type := String × String × String
deriving DecidableEq

/-- Source line 95: `cols = st.columns(min(4, len(tickers)))`. -/
def numCols (tickerList : List String) : ℕ :=
  min 4 tickerList.length

/-- Source line 96: `tickers[:4]`, the tickers shown as highlight
metrics. -/
def highlight (tickerList : List String) : List String :=
  tickerList.take 4

/-- Source line 102: the column index `i % 4` used for the i-th
highlighted ticker. -/
def colIndex (i : ℕ) : ℕ := i % 4

end StockDashboard

namespace StockDashboard

/-- C3 (counterexample): the parser keeps duplicates, so the input
"aapl, msft ,, msft" parses to [AAPL, MSFT, MSFT], not to the ordered
unique sequence [AAPL, MSFT] the claim states. -/
theorem tickers_counterexample :
    tickers "aapl, msft ,, msft" ≠ ["AAPL", "MSFT"] ∧
    tickers "aapl, msft ,, msft" = ["AAPL", "MSFT", "MSFT"] := by
  decide

/-- C3 (amended): watchlist parsing yields, in input order, the
whitespace-trimmed uppercased non-empty entries of the comma-separated
input, with duplicates preserved (no deduplication); in particular
"aapl, msft ,, msft" parses to [AAPL, MSFT, MSFT]. -/
theorem tickers_amended :
    (∀ w : String,
        tickers w =
          (((splitComma w.data).map strip).filter (fun s => !s.isEmpty)).map
            (fun s => (s.map upperChar).asString)) ∧
    tickers "aapl, msft ,, msft" = ["AAPL", "MSFT", "MSFT"] := by
  constructor
  · intro w
    unfold tickers
    have h : ∀ l : List (List Char),
        (l.filterMap fun t =>
          let s := strip t
          if s = [] then none else some (s.map upperChar)) =
        ((l.map strip).filter (fun s => !s.isEmpty)).map
          (fun s => s.map upperChar) := by
      intro l
      induction l with
      | nil => rfl
      | cons t l ih =>
        simp only [List.filterMap_cons, List.map_cons, List.filter_cons]
        cases hs : strip t with
        | nil => simp [hs, ih]
        | cons c cs => simp [hs, ih]
    rw [h, List.map_map]
    simp [Function.comp]
  · decide

/-- C4: `pct_change` returns the undefined value (NaN, modelled as
`none`) whenever either input is unavailable or the previous value is
0, and otherwise returns exactly (curr - prev) / prev * 100; in
particular change(110, 100) = 10, change(90, 0) is undefined and
change(None, 100) is undefined. -/
theorem pct_change_spec :
    (∀ c p : Option ℚ, (c = none ∨ p = none ∨ p = some 0) → pct_change c p = none) ∧
    (∀ q r : ℚ, r ≠ 0 → pct_change (some q) (some r) = some ((q - r) / r * 100)) ∧
    pct_change (some 110) (some 100) = some 10 ∧
    pct_change (some 90) (some 0) = none ∧
    pct_change none (some 100) = none := by
  have hundef : ∀ c p : Option ℚ,
      (c = none ∨ p = none ∨ p = some 0) → pct_change c p = none := by
    intro c p h
    simp only [pct_change]
    rw [if_pos h]
  have hdef : ∀ q r : ℚ, r ≠ 0 →
      pct_change (some q) (some r) = some ((q - r) / r * 100) := by
    intro q r hr
    simp only [pct_change]
    rw [if_neg]
    simp [hr]
  refine ⟨hundef, hdef, ?_, hundef _ _ (Or.inr (Or.inr rfl)), hundef _ _ (Or.inl rfl)⟩
  rw [hdef 110 100 (by norm_num)]
  norm_num

/-- Witness for C4 at curr = 110, prev = 100. -/
theorem pct_change_spec_witness :
    pct_change (some 110) (some 100) = some ((110 - 100) / 100 * 100) :=
  pct_change_spec.2.1 110 100 (by norm_num)


/-- C10: for every non-empty watchlist the highlight grid has exactly
min(4, n) columns, exactly min(4, n) tickers are iterated (never more
than 4), and each column index i % 4 is strictly below the number of
columns, so the access `cols[i % 4]` is in range. -/
theorem highlight_grid_safe :
    ∀ l : List String, l ≠ [] →
      (highlight l).length = numCols l ∧
      (highlight l).length ≤ 4 ∧
      ∀ i < (highlight l).length, colIndex i < numCols l := by
  intro l _
  have hlen : (highlight l).length = min 4 l.length := List.length_take 4 l
  refine ⟨hlen, ?_, ?_⟩
  · rw [hlen]; exact Nat.min_le_left 4 l.length
  · intro i hi
    rw [hlen] at hi
    have h4 : i < 4 := lt_of_lt_of_le hi (Nat.min_le_left 4 l.length)
    have : colIndex i = i := Nat.mod_eq_of_lt h4
    rw [this]
    exact hi

/-- Witness for C10 on a five-ticker watchlist at i = 3. -/
theorem highlight_grid_safe_witness :
    colIndex 3 < numCols ["AAPL", "MSFT", "GOOGL", "TSLA", "AMZN"] :=
  (highlight_grid_safe ["AAPL", "MSFT", "GOOGL", "TSLA", "AMZN"]
    (by decide)).2.2 3 (by decide)

/-- C8: when the provider returns no rows (`None` or an empty frame)
`fetch_intraday_history` returns the empty frame as a normal result,
which is never the raised-error outcome reserved for transport
failures. -/
theorem fetch_history_empty_result :
    (∀ ρ : Type, fetch_intraday_history (ρ := ρ) (.ok none) = .ok emptyDF) ∧
    (∀ (ρ : Type) (df : DataFrame ρ), df.isEmptyDF = true →
      fetch_intraday_history (.ok (some df)) = .ok emptyDF) ∧
    (∀ (ρ : Type) (e : Unit),
      (Except.ok emptyDF : Except Unit (DataFrame ρ)) ≠ .error e) := by
  refine ⟨fun ρ => rfl, ?_, fun ρ e h => by cases h⟩
  intro ρ df h
  simp [fetch_intraday_history, h]

/-- Witness for C8 on a concrete empty frame. -/
theorem fetch_history_empty_result_witness :
    fetch_intraday_history (.ok (some (emptyDF (ρ := Unit)))) = .ok emptyDF :=
  fetch_history_empty_result.2.1 Unit emptyDF rfl

/-- C5: a non-empty history series is always returned with its index
tagged America/New_York; a naive upstream index (wall clocks assumed
UTC, hence instants unchanged) and an aware upstream index carrying
the same instants normalize to literally equal frames, whose display
offset at instant i is the New York offset at i in both cases. -/
theorem fetch_history_tz_normalization :
    ∀ (ρ : Type) (walls : List Int) (vals : List ρ) (z : TZ),
      walls ≠ [] →
      fetch_intraday_history (.ok (some ⟨none, walls, vals⟩)) =
        .ok ⟨some TZ.newYork, walls, vals⟩ ∧
      fetch_intraday_history (.ok (some ⟨some z, walls, vals⟩)) =
        .ok ⟨some TZ.newYork, walls, vals⟩ ∧
      ∀ (nyOffset : Int → Int) (uo : String → Int → Int) (i : Int),
        displayOffset nyOffset uo TZ.newYork i = nyOffset i := by
  intro ρ walls vals z hw
  have hne : walls.isEmpty = false := by
    cases walls with
    | nil => exact absurd rfl hw
    | cons a l => rfl
  refine ⟨?_, ?_, fun nyOffset uo i => rfl⟩
  · simp [fetch_intraday_history, DataFrame.isEmptyDF, hne,
      DataFrame.tz_localize_utc, DataFrame.tz_convert]
  · simp [fetch_intraday_history, DataFrame.isEmptyDF, hne,
      DataFrame.tz_convert]

/-- Witness for C5 on a one-row naive frame. -/
theorem fetch_history_tz_normalization_witness :
    fetch_intraday_history (.ok (some ⟨none, [0], [()]⟩)) =
      .ok ⟨some TZ.newYork, [0], [()]⟩ :=
  (fetch_history_tz_normalization Unit [0] [()] TZ.utc (by decide)).1

/-- C2 (counterexample): `fetch_intraday_history` has no exception
handler, so a transport error raised by the upstream `yf.download`
call propagates to the caller as a raised error, contradicting the
claim that no such error ever propagates. -/
theorem fetch_history_error_propagates :
    fetch_intraday_history (ρ := Unit) (.error ()) = .error () := rfl

/-- C2 (amended): a transport failure raised inside `fetch_quote` is
caught at the fetcher boundary and converted to the all-unavailable
quote (the call always returns a quote), while
`fetch_intraday_history` propagates a raised upstream error unchanged
to its caller. -/
theorem fetcher_error_boundary :
    fetch_quote (.error ()) = emptyQuote ∧
    (∀ (ρ : Type) (e : Unit),
      fetch_intraday_history (ρ := ρ) (.error e) = .error e) ∧
    (∀ info : FastInfo, ∃ q : Quote, fetch_quote (.ok info) = q) := by
  exact ⟨rfl, fun ρ e => rfl, fun info => ⟨fetch_quote (.ok info), rfl⟩⟩



/-- C9: `fetch_quote` totally returns a record with exactly the five
fields last_price, open, previous_close, currency, exchange; one
malformed numeric field makes the whole call return the fully
unavailable quote (the other retrievable fields are not preserved),
while an absent field is tolerated per-field, leaving the others
intact. -/
theorem fetch_quote_field_tolerance :
    (∀ q : Quote,
      q = ⟨q.last_price, q.open_, q.previous_close, q.currency, q.exchange⟩) ∧
    (∀ info : FastInfo,
      (info.last_price = some .malformed ∨ info.open_ = some .malformed ∨
        info.previous_close = some .malformed) →
      fetch_quote (.ok info) = emptyQuote) ∧
    (∀ (b c : ℚ) (cur ex : Option String),
      fetch_quote (.ok ⟨none, some (.num b), some (.num c), cur, ex⟩) =
        ⟨none, some b, some c, cur.getD "", ex.getD ""⟩) := by
  refine ⟨fun q => rfl, ?_, fun b c cur ex => rfl⟩
  intro info h
  rcases info with ⟨lp, op, pc, cu, ex⟩
  rcases h with h | h | h <;> dsimp only at h <;> subst h
  · rfl
  · rcases lp with _ | (q | _) <;> rfl
  · rcases lp with _ | (q | _) <;> rcases op with _ | (q2 | _) <;> rfl

/-- Witness for C9: a malformed last_price discards the present open,
previous_close, currency and exchange values. -/
theorem fetch_quote_field_tolerance_witness :
    fetch_quote (.ok ⟨some .malformed, some (.num 3), some (.num 2),
      some "USD", some "NMS"⟩) = emptyQuote :=
  fetch_quote_field_tolerance.2.1 _ (Or.inl rfl)



/-- C6: two `get_or_fetch` calls for the same key within the TTL
window invoke the underlying fetch function at most once, and the
TTLs are the fixed per-cache constants 15 s (quote) and 30 s
(history), the quote TTL strictly shorter. -/
theorem cache_hit_within_ttl {κ α : Type} [DecidableEq κ]
    (c : Cache κ α) (k : κ) (ttl t1 t2 : ℕ) (f : Unit → α)
    (h : t2 - t1 < ttl) :
    twoCallCount c k ttl t1 t2 f ≤ 1 ∧
    quoteTTL = 15 ∧ historyTTL = 30 ∧ quoteTTL < historyTTL := by
  refine ⟨?_, rfl, rfl, by norm_num [quoteTTL, historyTTL]⟩
  unfold twoCallCount
  cases hc : c k with
  | none =>
    simp only [get_or_fetch, hc, Cache.insert, if_pos rfl, h, if_true]
    simp [h]
  | some e =>
    by_cases hv : t1 - e.stored_at < ttl
    · simp only [get_or_fetch, hc, if_pos hv]
      split <;> simp
    · simp only [get_or_fetch, hc, if_neg hv, Cache.insert]
      simp [h]

/-- Witness for C6: an empty quote cache consulted at times 0 and 10
with the 15-second quote TTL. -/
theorem cache_hit_within_ttl_witness :
    twoCallCount (fun _ : String => none) "AAPL" quoteTTL 0 10
      (fun _ => emptyQuote) ≤ 1 ∧
    quoteTTL = 15 ∧ historyTTL = 30 ∧ quoteTTL < historyTTL :=
  cache_hit_within_ttl (fun _ => none) "AAPL" quoteTTL 0 10
    (fun _ => emptyQuote) (by norm_num [quoteTTL])

/-- C7: the history cache is keyed by the full
(ticker, period, granularity) triple, so storing under one chart
mode key leaves the entry under any other key untouched; the Line and
Candlestick presets map to the distinct key components ("1d", "1m")
and ("5d", "5m"). -/
theorem history_cache_key_isolation :
    (∀ (α : Type) (c : Cache HistoryKey α) (k1 k2 : HistoryKey)
        (ttl now : ℕ) (f : Unit → α), k1 ≠ k2 →
      (get_or_fetch c k2 ttl now f).2.1 k1 = c k1) ∧
    range_map "Line (1m)" = some ("1d", "1m") ∧
    range_map "Candlestick (5m)" = some ("5d", "5m") ∧
    ∀ t : String, ((t, "1d", "1m") : HistoryKey) ≠ (t, "5d", "5m") := by
  refine ⟨?_, rfl, rfl, fun t h => by simp at h⟩
  intro α c k1 k2 ttl now f hne
  unfold get_or_fetch
  cases hc : c k2 with
  | none => simp [Cache.insert, hne]
  | some e =>
    by_cases hv : now - e.stored_at < ttl <;>
      simp [hv, Cache.insert, hne]

/-- Witness for C7: fetching AAPL under the Candlestick key leaves the
(absent) entry under the Line key unchanged. -/
theorem history_cache_key_isolation_witness :
    (get_or_fetch (fun _ : HistoryKey => (none : Option (CacheEntry ℕ)))
        ("AAPL", "5d", "5m") historyTTL 0 (fun _ => 0)).2.1
      ("AAPL", "1d", "1m") = none :=
  history_cache_key_isolation.1 ℕ (fun _ => none)
    ("AAPL", "1d", "1m") ("AAPL", "5d", "5m") historyTTL 0 (fun _ => 0)
    (by decide)



/-- A concrete previously-fetched quote sitting in the quote cache. -/
def staleQuote : Quote :=
  { last_price := some 100, open_ := some 99, previous_close := some 101
    currency := "USD", exchange := "NMS" }

/-- A quote cache holding an expired entry for AAPL (stored at time 0,
consulted at time 100 with a 15-second TTL). -/
def staleCache : Cache String Quote :=
  fun k => if k = "AAPL" then some ⟨staleQuote, 0⟩ else none

/-- A fetch attempt whose upstream call fails. -/
def failedQuoteFetch : Unit → Quote := fun _ => fetch_quote (.error ())

/-- C1 (counterexample): with an expired AAPL entry in the quote cache
and a failing fetch, `get_or_fetch` returns the empty quote, not the
pre-fetch entry, and overwrites the cached entry with the empty quote
instead of leaving it unchanged. -/
theorem stale_fallback_counterexample :
    (get_or_fetch staleCache "AAPL" quoteTTL 100 failedQuoteFetch).1 ≠
      staleQuote ∧
    (get_or_fetch staleCache "AAPL" quoteTTL 100 failedQuoteFetch).2.1 "AAPL" ≠
      some ⟨staleQuote, 0⟩ ∧
    (get_or_fetch staleCache "AAPL" quoteTTL 100 failedQuoteFetch).1 =
      emptyQuote ∧
    (get_or_fetch staleCache "AAPL" quoteTTL 100 failedQuoteFetch).2.1 "AAPL" =
      some ⟨emptyQuote, 100⟩ := by
  have h1 : (get_or_fetch staleCache "AAPL" quoteTTL 100 failedQuoteFetch).1 =
      emptyQuote := rfl
  have h2 : (get_or_fetch staleCache "AAPL" quoteTTL 100
      failedQuoteFetch).2.1 "AAPL" = some ⟨emptyQuote, 100⟩ := rfl
  refine ⟨?_, ?_, h1, h2⟩
  · rw [h1]
    simp [emptyQuote, staleQuote]
  · rw [h2]
    simp [emptyQuote, staleQuote]

/-- C1 (amended): when the entry for the key is absent or expired and
the fetch attempt fails, the fetcher returns the designated empty
quote and `get_or_fetch` stores it at the current time, overwriting
any prior expired entry and returning the empty quote (never the
stale entry); a fresh prior entry survives only because no fetch is
attempted. -/
theorem get_or_fetch_failure_overwrites :
    ∀ (c : Cache String Quote) (k : String) (now : ℕ),
      (c k = none ∨ ∃ e, c k = some e ∧ ¬(now - e.stored_at < quoteTTL)) →
      get_or_fetch c k quoteTTL now (fun _ => fetch_quote (.error ())) =
        (emptyQuote, c.insert k ⟨emptyQuote, now⟩, 1) := by
  intro c k now h
  rcases h with h | ⟨e, he, hv⟩
  · unfold get_or_fetch
    rw [h]
    rfl
  · unfold get_or_fetch
    rw [he]
    dsimp only
    rw [if_neg hv]
    rfl

/-- Witness for C1 (amended) on the concrete expired-entry cache. -/
theorem get_or_fetch_failure_overwrites_witness :
    get_or_fetch staleCache "AAPL" quoteTTL 100
        (fun _ => fetch_quote (.error ())) =
      (emptyQuote, staleCache.insert "AAPL" ⟨emptyQuote, 100⟩, 1) :=
  get_or_fetch_failure_overwrites staleCache "AAPL" 100
    (Or.inr ⟨⟨staleQuote, 0⟩, rfl, by norm_num [quoteTTL]⟩)


end StockDashboard
